import Mathlib

/-!
Verification of the Kombat turn engine.

The definitions below are a shallow embedding of the game logic found in the
repository's game-phase component: the hex coordinate helpers
(`getHexNeighbors`, `hexDistance`), the combat resolver (`executeCharAction`,
`moveToward`), the execution scheduler (`getExecutionOrder`), the shopping
operations (`buyHex`, `placeCharacter` together with the `handleHexClick`
guard that selects the target cell), the phase state machine (`handleDone`,
`handleExecDone`) and the round-end settlement (`goToNextTurn`).

Conventions of the embedding:
* JS numbers holding integers are `Int` (hit points, attack, defense) or
  `Nat` (coordinates, gold, counters); `Math.max(0, g - cost)` on gold
  becomes truncated `Nat` subtraction, and `Math.floor(g * 0.1)` on a
  nonnegative integer becomes `g / 10`.
* The grid is a total function from (row, col) to cells; the board is the
  8×8 region enumerated row-major by `allPositions`, exactly the region the
  source loops iterate.
* JS object identity (`ch !== currentChar`) is rendered positionally: every
  grid cell holds its own copy of a character, so the acting character is
  identified by its cell.
* `Array.prototype.sort` with a numeric key comparator is a stable sort;
  it is modelled by `List.insertionSort` with the non-strict key order,
  which produces the same list as any stable sort.
-/

namespace Kombat

/-- The two players (`1 | 2` in the source). -/
inductive Player
  | one
  | two
deriving DecidableEq, Repr

/-- The `Character` interface: a unit template or a live battle unit.
`owner`, `spawnOrder` and `strategy` are optional in the source and set on
deployment. The source field `def` is spelled `defense` here. -/
structure Character where
  id : String
  name : String
  emoji : String
  hp : Int
  maxHp : Int
  atk : Int
  defense : Int
  cost : Nat
  tier : Nat
  owner : Option Player := none
  spawnOrder : Option Nat := none
  strategy : Option String := none
deriving DecidableEq, Repr

/-- The `HexCell` interface (`row`/`col` are the cell's index in the grid and
are kept implicit in the function representation). -/
structure HexCell where
  owner : Option Player := none
  character : Option Character := none
deriving DecidableEq, Repr

/-- The grid, as a total function on (row, col). -/
def Grid : Type := Nat → Nat → HexCell

def ROWS : Nat := 8
def COLS : Nat := 8
def INITIAL_GOLD : Nat := 20
def HEX_COST : Nat := 3

/-- The unit catalog `CHARACTERS`. -/
def CHARACTERS : List Character :=
  [ { id := "warrior", name := "Warrior", emoji := "⚔️", hp := 120, maxHp := 120,
      atk := 15, defense := 10, cost := 1, tier := 1 },
    { id := "mage", name := "Mage", emoji := "🔮", hp := 80, maxHp := 80,
      atk := 25, defense := 5, cost := 2, tier := 2 },
    { id := "tank", name := "Tank", emoji := "🛡️", hp := 200, maxHp := 200,
      atk := 8, defense := 20, cost := 3, tier := 2 },
    { id := "assassin", name := "Assassin", emoji := "🗡️", hp := 70, maxHp := 70,
      atk := 30, defense := 3, cost := 3, tier := 3 },
    { id := "healer", name := "Healer", emoji := "💚", hp := 90, maxHp := 90,
      atk := 10, defense := 8, cost := 2, tier := 1 } ]

/-- The row-major enumeration of the 8×8 board, in the order every
`for (r) for (c)` loop of the source visits the cells. -/
def allPositions : List (Nat × Nat) :=
  (List.range ROWS).flatMap (fun r => (List.range COLS).map (fun c => (r, c)))

/-- `getHexNeighbors`: parity-dependent offsets (pointy-top, even-r),
filtered to the in-bounds cells. -/
def getHexNeighbors (r c : Nat) : List (Nat × Nat) :=
  let offsets : List (Int × Int) :=
    if r % 2 = 0 then [(-1, -1), (-1, 0), (0, -1), (0, 1), (1, -1), (1, 0)]
    else [(-1, 0), (-1, 1), (0, -1), (0, 1), (1, 0), (1, 1)]
  (offsets.map (fun d => ((r : Int) + d.1, (c : Int) + d.2))).filterMap
    (fun p =>
      if 0 ≤ p.1 ∧ p.1 < (ROWS : Int) ∧ 0 ≤ p.2 ∧ p.2 < (COLS : Int) then
        some (p.1.toNat, p.2.toNat)
      else none)

/-- Cube coordinates produced by the `toCube` conversion inside
`hexDistance` (even-r offset to cube; `r & 1` on a nonnegative row is
`r % 2`). -/
structure Cube where
  x : Int
  y : Int
  z : Int
deriving DecidableEq, Repr

def toCube (r c : Nat) : Cube :=
  let x : Int := (c : Int) - (((r - r % 2) / 2 : Nat) : Int)
  let z : Int := (r : Int)
  { x := x, y := -x - z, z := z }

/-- `hexDistance`: Chebyshev distance of the cube coordinates. -/
def hexDistance (r1 c1 r2 c2 : Nat) : Int :=
  let a := toCube r1 c1
  let b := toCube r2 c2
  max |a.x - b.x| (max |a.y - b.y| |a.z - b.z|)

/-- The Chebyshev distance formula on cube coordinates as the spec states it:
`max(|dx|,|dy|,|dz|)`. -/
def cubeChebyshev (a b : Cube) : Int :=
  max |a.x - b.x| (max |a.y - b.y| |a.z - b.z|)

/-- `P1_INITIAL` starting territory. -/
def P1_INITIAL : List (Nat × Nat) := [(0, 1), (0, 2), (1, 0), (1, 1), (2, 0)]

/-- `P2_INITIAL` starting territory. -/
def P2_INITIAL : List (Nat × Nat) := [(7, 6), (7, 5), (6, 7), (6, 6), (5, 7)]

/-- `createInitialGrid`: empty cells everywhere, with the two starting
territory sets assigned their owners. -/
def createInitialGrid : Grid := fun r c =>
  if (r, c) ∈ P1_INITIAL then { owner := some .one }
  else if (r, c) ∈ P2_INITIAL then { owner := some .two }
  else {}

/-- Point update of the grid's `character` field (the net effect of the
source's `newGrid[r][c].character = v` writes). -/
def setCharacter (g : Grid) (r c : Nat) (v : Option Character) : Grid :=
  fun r' c' => if r' = r ∧ c' = c then { g r' c' with character := v } else g r' c'

/-- Point update of the grid's `owner` field (`next[r][c].owner = player`). -/
def setOwner (g : Grid) (r c : Nat) (v : Option Player) : Grid :=
  fun r' c' => if r' = r ∧ c' = c then { g r' c' with owner := v } else g r' c'

/-- ASCII lowercasing, the effect of `toLowerCase` on the strategy strings
appearing in this code base. -/
def lowerStr (s : String) : String := ⟨s.data.map Char.toLower⟩

/-- `String.prototype.includes`: `containsSeq needle hay` is true when
`needle` occurs as a contiguous subsequence of `hay`. -/
def containsSeq (needle : List Char) : List Char → Bool
  | [] => needle.isPrefixOf []
  | a :: rest => needle.isPrefixOf (a :: rest) || containsSeq needle rest

/-- `currentChar.strategy || "attack nearest"` (JS `||` also replaces the
empty string). -/
def strategyOf (ch : Character) : String :=
  match ch.strategy with
  | some s => if s = "" then "attack nearest" else s
  | none => "attack nearest"

/-- The heal-branch dispatch test:
`currentChar.id === "healer" || strategy.includes("heal")`. -/
def healDispatch (ch : Character) : Bool :=
  ch.id = "healer" || containsSeq "heal".data (lowerStr (strategyOf ch)).data

/-- The damage formula `Math.max(1, currentChar.atk - nearest.char.def)`. -/
def damage (atk defense : Int) : Int := max 1 (atk - defense)

/-- An entry of the `enemies`/`allies` arrays: a character together with its
position and its hex distance from the acting unit. -/
structure Target where
  char : Character
  r : Nat
  c : Nat
  dist : Int
deriving DecidableEq, Repr

/-- Key order of `(a, b) => a.dist - b.dist`. -/
def distLe (a b : Target) : Prop := a.dist ≤ b.dist

instance : DecidableRel distLe := fun a b => Int.decLe a.dist b.dist

instance : IsTotal Target distLe := ⟨fun a b => Int.le_total a.dist b.dist⟩

instance : IsTrans Target distLe := ⟨fun _ _ _ => Int.le_trans⟩

instance : IsRefl Target distLe := ⟨fun a => Int.le_refl a.dist⟩

/-- Key order of `(a, b) => a.char.hp - b.char.hp`. -/
def hpLe (a b : Target) : Prop := a.char.hp ≤ b.char.hp

instance : DecidableRel hpLe := fun a b => Int.decLe a.char.hp b.char.hp

instance : IsTotal Target hpLe := ⟨fun a b => Int.le_total a.char.hp b.char.hp⟩

instance : IsTrans Target hpLe := ⟨fun _ _ _ => Int.le_trans⟩

instance : IsRefl Target hpLe := ⟨fun a => Int.le_refl a.char.hp⟩

/-- The `enemies` array of `executeCharAction`: living characters of the
other owner, annotated with distance, gathered row-major. -/
def enemiesOf (g : Grid) (cr cc : Nat) (me : Character) : List Target :=
  allPositions.filterMap (fun pos =>
    match (g pos.1 pos.2).character with
    | some ch =>
        if 0 < ch.hp ∧ ch.owner ≠ me.owner then
          some { char := ch, r := pos.1, c := pos.2, dist := hexDistance cr cc pos.1 pos.2 }
        else none
    | none => none)

/-- The `allies` array of `executeCharAction`: living characters of the same
owner, excluding the acting unit itself (object identity in the source; the
acting unit is the one at `(cr, cc)`). -/
def alliesOf (g : Grid) (cr cc : Nat) (me : Character) : List Target :=
  allPositions.filterMap (fun pos =>
    match (g pos.1 pos.2).character with
    | some ch =>
        if 0 < ch.hp ∧ ch.owner = me.owner ∧ ¬(pos.1 = cr ∧ pos.2 = cc) then
          some { char := ch, r := pos.1, c := pos.2, dist := hexDistance cr cc pos.1 pos.2 }
        else none
    | none => none)

/-- `allies.filter(a => a.char.hp < a.char.maxHp).sort((a,b) => a.char.hp - b.char.hp)`. -/
def woundedSorted (allies : List Target) : List Target :=
  (allies.filter (fun a => decide (a.char.hp < a.char.maxHp))).insertionSort hpLe

/-- `enemies.sort((a,b) => a.dist - b.dist)`. -/
def enemiesByDist (enemies : List Target) : List Target := enemies.insertionSort distLe

/-- `moveToward`: among empty neighbor cells, pick the first that strictly
improves the hex distance to the destination (strictly better than the best
seen so far, starting from the current distance); relocate there, or report
a blocked move. -/
def moveToward (g : Grid) (ch : Character) (fromR fromC toR toC : Nat) (desc : String) :
    Grid × String :=
  let start : Int × Option (Nat × Nat) := (hexDistance fromR fromC toR toC, none)
  let best := (getHexNeighbors fromR fromC).foldl
    (fun acc p =>
      if (g p.1 p.2).character ≠ none then acc
      else if hexDistance p.1 p.2 toR toC < acc.1 then (hexDistance p.1 p.2 toR toC, some p)
      else acc) start
  match best.2 with
  | some p => (setCharacter (setCharacter g p.1 p.2 (some ch)) fromR fromC none, desc)
  | none => (g, "Blocked — cannot move")

/-- The attack-nearest tail of `executeCharAction`: the nearest enemy is the
head of the stably sorted `enemies` array; adjacent targets are attacked
(kill when hit points drop to 0 or below), others are approached. The `[]`
case is unreachable because the caller has checked `enemies.length !== 0`. -/
def attackNearest (g : Grid) (me : Character) (cr cc : Nat) (enemies : List Target) :
    Grid × String :=
  match enemiesByDist enemies with
  | [] => (g, "")
  | n :: _ =>
    if n.dist ≤ 1 then
      let dmg := damage me.atk n.char.defense
      let hp2 := n.char.hp - dmg
      if hp2 ≤ 0 then
        (setCharacter g n.r n.c none,
         "Attacked " ++ n.char.emoji ++ n.char.name ++ " for " ++ toString dmg
           ++ " dmg — KILLED!")
      else
        (setCharacter g n.r n.c (some { n.char with hp := hp2 }),
         "Attacked " ++ n.char.emoji ++ n.char.name ++ " for " ++ toString dmg
           ++ " dmg (" ++ toString hp2 ++ "HP left)")
    else
      moveToward g me cr cc n.r n.c ("Moving toward " ++ n.char.emoji ++ n.char.name)

/-- `executeCharAction`: resolve one unit's action. The source asserts the
acting cell is occupied (`newGrid[cr][cc].character!`); an empty acting cell
returns the grid unchanged here. -/
def executeCharAction (g : Grid) (cr cc : Nat) : Grid × String :=
  match (g cr cc).character with
  | none => (g, "")
  | some me =>
    let enemies := enemiesOf g cr cc me
    if enemies = [] then (g, "No enemies — idle")
    else if healDispatch me then
      match woundedSorted (alliesOf g cr cc me) with
      | w :: _ =>
          if w.dist ≤ 2 then
            (setCharacter g w.r w.c
               (some { w.char with hp := min w.char.maxHp (w.char.hp + me.atk) }),
             "Healed " ++ w.char.emoji ++ w.char.name ++ " +" ++ toString me.atk ++ "HP")
          else
            moveToward g me cr cc w.r w.c ("Moving toward wounded " ++ w.char.emoji)
      | [] => attackNearest g me cr cc enemies
    else attackNearest g me cr cc enemies

/-- The scheduler's player filter (`1 | 2 | "all"`). -/
inductive PlayerFilter
  | single (p : Player)
  | all
deriving DecidableEq, Repr

/-- An entry of the scheduler's `allChars` array. -/
structure OrderEntry where
  char : Character
  r : Nat
  c : Nat
deriving DecidableEq, Repr

/-- `playerFilter === "all" || ch.owner === playerFilter`. -/
def livingFilter : PlayerFilter → Character → Bool
  | .all, _ => true
  | .single p, ch => decide (ch.owner = some p)

/-- One cell's contribution to the scheduler's scan: its character when
living and matching the filter. -/
def scanFun (g : Grid) (f : PlayerFilter) (pos : Nat × Nat) : Option OrderEntry :=
  match (g pos.1 pos.2).character with
  | some ch =>
      if 0 < ch.hp ∧ livingFilter f ch = true then some ⟨ch, pos.1, pos.2⟩ else none
  | none => none

/-- The row-major scan of `getExecutionOrder`: living characters matching
the player filter. -/
def scanLiving (g : Grid) (f : PlayerFilter) : List OrderEntry :=
  allPositions.filterMap (scanFun g f)

/-- Key order of `(a, b) => (a.char.spawnOrder || 0) - (b.char.spawnOrder || 0)`. -/
def spawnLe (a b : OrderEntry) : Prop :=
  a.char.spawnOrder.getD 0 ≤ b.char.spawnOrder.getD 0

instance : DecidableRel spawnLe :=
  fun a b => Nat.decLe (a.char.spawnOrder.getD 0) (b.char.spawnOrder.getD 0)

instance : IsTotal OrderEntry spawnLe :=
  ⟨fun a b => Nat.le_total (a.char.spawnOrder.getD 0) (b.char.spawnOrder.getD 0)⟩

instance : IsTrans OrderEntry spawnLe := ⟨fun _ _ _ => Nat.le_trans⟩

instance : IsRefl OrderEntry spawnLe := ⟨fun a => Nat.le_refl (a.char.spawnOrder.getD 0)⟩

/-- `getExecutionOrder`: with the `"all"` filter, the round parity picks the
first-moving player, each player's units are sorted by spawn order, and the
first player's block precedes the second's; with a single-player filter the
matching units are sorted by spawn order. -/
def getExecutionOrder (g : Grid) (f : PlayerFilter) (turn : Nat) : List OrderEntry :=
  let allChars := scanLiving g f
  match f with
  | .all =>
      let firstPlayer : Player := if turn % 2 = 1 then .one else .two
      let secondPlayer : Player := if firstPlayer = .one then .two else .one
      (allChars.filter (fun e => decide (e.char.owner = some firstPlayer))).insertionSort spawnLe
        ++ (allChars.filter (fun e => decide (e.char.owner = some secondPlayer))).insertionSort
            spawnLe
  | .single _ => allChars.insertionSort spawnLe

/-- A `Record<1 | 2, α>` of the source. -/
structure PerPlayer (α : Type) where
  one : α
  two : α
deriving DecidableEq, Repr

def PerPlayer.get {α : Type} (s : PerPlayer α) : Player → α
  | .one => s.one
  | .two => s.two

def PerPlayer.set {α : Type} (s : PerPlayer α) : Player → α → PerPlayer α
  | .one, v => { s with one := v }
  | .two, v => { s with two := v }

/-- The `GameStep` state machine type. -/
inductive GameStep
  | shopping (p : Player)
  | executing (f : PlayerFilter)
  | gameOver
deriving DecidableEq, Repr

/-- The engine state a game-phase page holds during one turn: grid, gold,
per-round territory-purchase flags, spawn counters and the current step. -/
structure MatchState where
  grid : Grid
  gold : PerPlayer Nat
  hexBoughtThisTurn : PerPlayer Bool
  spawnCounter : PerPlayer Nat
  step : GameStep

/-- `ownedCount`: cells owned by the player. -/
def ownedCount (g : Grid) (p : Player) : Nat :=
  allPositions.countP (fun pos => decide ((g pos.1 pos.2).owner = some p))

/-- `charOnBoard`: owned cells that hold a character. -/
def charOnBoard (g : Grid) (p : Player) : Nat :=
  allPositions.countP (fun pos =>
    decide ((g pos.1 pos.2).owner = some p ∧ (g pos.1 pos.2).character ≠ none))

/-- `maxUnits`: the unit cap equals the owned-cell count. -/
def maxUnits (g : Grid) (p : Player) : Nat := ownedCount g p

/-- `isAdjacentToOwned`. -/
def isAdjacentToOwned (g : Grid) (r c : Nat) (p : Player) : Bool :=
  (getHexNeighbors r c).any (fun pos => decide ((g pos.1 pos.2).owner = some p))

/-- The territory-purchase flow. `handleHexClick` opens the purchase popup
only for an unowned cell adjacent to the shopping player's territory, and
`buyHex` additionally rejects the purchase outside shopping, when a hex was
already bought this turn, or when gold is below `HEX_COST`; a rejected
attempt returns the state unchanged. On success the cell's owner is set,
gold is deducted (`Math.max(0, g - HEX_COST)` is truncated subtraction) and
the player's flag is set. -/
def buyHex (s : MatchState) (r c : Nat) : MatchState :=
  match s.step with
  | .shopping p =>
      if (s.grid r c).owner = none ∧ isAdjacentToOwned s.grid r c p = true
          ∧ s.hexBoughtThisTurn.get p = false ∧ HEX_COST ≤ s.gold.get p then
        { s with
          grid := setOwner s.grid r c (some p),
          gold := s.gold.set p (s.gold.get p - HEX_COST),
          hexBoughtThisTurn := s.hexBoughtThisTurn.set p true }
      else s
  | _ => s

/-- The character written by `placeCharacter`:
`{ ...char, owner, spawnOrder, strategy: "attack nearest" }`. -/
def deployedChar (t : Character) (p : Player) (n : Nat) : Character :=
  { t with owner := some p, spawnOrder := some n, strategy := some "attack nearest" }

/-- The unit-deployment flow. `handleHexClick` opens the character popup
only for a cell the shopping player owns that is empty; `placeCharacter`
additionally rejects the deployment outside shopping, when gold is below the
template's cost, or when `charOnBoard ≥ maxUnits`; a rejected attempt
returns the state unchanged. On success the deployed character is written to
the cell, gold is deducted and the player's spawn counter advances. -/
def placeCharacter (s : MatchState) (r c : Nat) (ch : Character) : MatchState :=
  match s.step with
  | .shopping p =>
      if (s.grid r c).owner = some p ∧ (s.grid r c).character = none
          ∧ ch.cost ≤ s.gold.get p ∧ charOnBoard s.grid p < maxUnits s.grid p then
        { s with
          grid := setCharacter s.grid r c (some (deployedChar ch p (s.spawnCounter.get p))),
          gold := s.gold.set p (s.gold.get p - ch.cost),
          spawnCounter := s.spawnCounter.set p (s.spawnCounter.get p + 1) }
      else s
  | _ => s

/-- The cell-local ownership invariant: an occupied cell's owner is the
occupant's owner. -/
def cellOk (cell : HexCell) : Prop :=
  match cell.character with
  | some ch => cell.owner = ch.owner
  | none => True

instance (cell : HexCell) : Decidable (cellOk cell) := by
  unfold cellOk
  split
  · exact inferInstance
  · exact inferInstance

/-- The grid-wide ownership invariant over the board cells. -/
def OwnerInvariant (g : Grid) : Prop :=
  ∀ pos ∈ allPositions, cellOk (g pos.1 pos.2)

instance (g : Grid) : Decidable (OwnerInvariant g) := by
  unfold OwnerInvariant
  exact List.decidableBAll _ _

/-- `handleDone`, the shopping-phase "done" transition: on turn 1 player 1
hands over to player 2 and player 2 starts the all-units execution; on later
turns the shopping player's own units execute. Outside shopping the handler
returns without changing the step. -/
def handleDone (turn : Nat) : GameStep → GameStep
  | .shopping .one => if turn = 1 then .shopping .two else .executing (.single .one)
  | .shopping .two => if turn = 1 then .executing .all else .executing (.single .two)
  | s => s

/-- Where `handleExecDone` sends the page: either a new step of the same
turn, or `goToNextTurn` (the round end). -/
inductive ExecOutcome
  | toStep (s : GameStep)
  | toRoundEnd
deriving DecidableEq, Repr

/-- `handleExecDone`, the execution-complete transition: on turn 1 the round
ends; on later turns player 1's execution hands over to player 2's shopping,
and player 2's (or a stray "all") execution ends the round. -/
def handleExecDone (turn : Nat) : GameStep → ExecOutcome := fun s =>
  if turn = 1 then .toRoundEnd
  else
    match s with
    | .executing (.single .one) => .toStep (.shopping .two)
    | .executing (.single .two) => .toRoundEnd
    | .executing .all => .toRoundEnd
    | s => .toStep s

/-- A point of the per-round phase flow: a step within a turn, or the round
end of a turn. -/
inductive PhasePoint
  | mid (turn : Nat) (s : GameStep)
  | roundEnd (turn : Nat)
deriving DecidableEq, Repr

/-- The phase point `handleExecDone` reaches from an executing step. -/
def execDoneTarget (turn : Nat) (f : PlayerFilter) : PhasePoint :=
  match handleExecDone turn (.executing f) with
  | .toStep s => .mid turn s
  | .toRoundEnd => .roundEnd turn

/-- The phase transitions the page can perform: the shopping "done" button
(rendered only while shopping), the execution-complete button (rendered only
while executing, once the schedule is exhausted), and `goToNextTurn`'s
navigation into the next turn's player-1 shopping when the round limit is
not reached. -/
inductive PhaseTrans : PhasePoint → PhasePoint → Prop
  | done (t : Nat) (p : Player) :
      PhaseTrans (.mid t (.shopping p)) (.mid t (handleDone t (.shopping p)))
  | execDone (t : Nat) (f : PlayerFilter) :
      PhaseTrans (.mid t (.executing f)) (execDoneTarget t f)
  | nextTurn (t : Nat) : PhaseTrans (.roundEnd t) (.mid (t + 1) (.shopping .one))

/-- Phase points reachable from the start of a match (turn 1, player 1
shopping). -/
def PhaseReachable (st : PhasePoint) : Prop :=
  Relation.ReflTransGen PhaseTrans (.mid 1 (.shopping .one)) st

/-- The `{maxTurns, maxGold}` game settings record. -/
structure GameConfig where
  maxTurns : Nat
  maxGold : Nat
deriving DecidableEq, Repr

/-- The summed remaining hit points of a player's units on the grid. -/
def playerHp (g : Grid) (p : Player) : Int :=
  (allPositions.map (fun pos =>
    match (g pos.1 pos.2).character with
    | some ch => if ch.owner = some p then ch.hp else 0
    | none => 0)).sum

/-- `p1Hp > p2Hp ? 1 : p2Hp > p1Hp ? 2 : null`. -/
def hpWinner (g : Grid) : Option Player :=
  if playerHp g .two < playerHp g .one then some .one
  else if playerHp g .one < playerHp g .two then some .two
  else none

/-- End-of-round interest for one player:
`Math.min(maxGold, gold + Math.floor(gold * 0.1) + 5)`; on a nonnegative
integer `Math.floor(gold * 0.1)` is `gold / 10`. -/
def settleGold (maxGold g : Nat) : Nat := min maxGold (g + g / 10 + 5)

/-- The outcome of `goToNextTurn`: the match resolves, or the next turn
starts with the settled (and persisted) gold at player-1 shopping. -/
inductive TurnResult
  | over (winner : Option Player)
  | nextRound (turn : Nat) (gold : PerPlayer Nat) (step : GameStep)
deriving DecidableEq, Repr

/-- `goToNextTurn`: past the round limit the match is resolved by summed
remaining hit points, otherwise both players receive interest and the next
turn begins at player-1 shopping. The gold carried in `nextRound` is exactly
what the source persists before navigating. -/
def goToNextTurn (cfg : GameConfig) (turn : Nat) (g : Grid) (gold : PerPlayer Nat) :
    TurnResult :=
  if cfg.maxTurns < turn + 1 then .over (hpWinner g)
  else
    .nextRound (turn + 1)
      ⟨settleGold cfg.maxGold gold.one, settleGold cfg.maxGold gold.two⟩
      (.shopping .one)

/-- A cell obeys "occupants carry an owner": every character placed through
`placeCharacter` (and every character restored by the load path) has its
`owner` field set. -/
def cellOwned (cell : HexCell) : Prop :=
  match cell.character with
  | some ch => ch.owner ≠ none
  | none => True

instance (cell : HexCell) : Decidable (cellOwned cell) := by
  unfold cellOwned
  split
  · exact inferInstance
  · exact inferInstance

/-- Every occupant on the board carries an owner. -/
def OccupantsOwned (g : Grid) : Prop :=
  ∀ pos ∈ allPositions, cellOwned (g pos.1 pos.2)

instance (g : Grid) : Decidable (OccupantsOwned g) := by
  unfold OccupantsOwned
  exact List.decidableBAll _ _

/-- The phase points the round schedule can visit: turn 1 uses
shopping 1 / shopping 2 / executing all; later turns use
shopping 1 / executing 1 / shopping 2 / executing 2. -/
def SchedulePoint : PhasePoint → Prop
  | .mid t s =>
      (t = 1 ∧ (s = .shopping .one ∨ s = .shopping .two ∨ s = .executing .all))
        ∨ (2 ≤ t ∧ (s = .shopping .one ∨ s = .executing (.single .one)
            ∨ s = .shopping .two ∨ s = .executing (.single .two)))
  | .roundEnd t => 1 ≤ t

/-- A player's living units in row-major enumeration order, sorted by
ascending spawn order. -/
def sortedLiving (g : Grid) (p : Player) : List OrderEntry :=
  (scanLiving g (.single p)).insertionSort spawnLe

/-- Catalog entries by name. -/
def warriorT : Character := CHARACTERS.get ⟨0, by decide⟩

def mageT : Character := CHARACTERS.get ⟨1, by decide⟩

def tankT : Character := CHARACTERS.get ⟨2, by decide⟩

def assassinT : Character := CHARACTERS.get ⟨3, by decide⟩

def healerT : Character := CHARACTERS.get ⟨4, by decide⟩

/-- A reachable round-1 battle grid: on the initial territories, player 1
has deployed a warrior on (2,0) and player 2 an assassin on (7,6). -/
def cexGrid : Grid :=
  setCharacter
    (setCharacter createInitialGrid 2 0 (some (deployedChar warriorT .one 0)))
    7 6 (some (deployedChar assassinT .two 0))

/-- Two adjacent units: player 1's assassin on (0,1) and player 2's tank on
(0,2) (hex distance 1). -/
def atkGrid : Grid := fun r c =>
  if r = 0 ∧ c = 1 then
    { owner := some .one, character := some (deployedChar assassinT .one 0) }
  else if r = 0 ∧ c = 2 then
    { owner := some .two, character := some (deployedChar tankT .two 0) }
  else {}

/-- The tank of `atkGrid` as the acting assassin's enemy entry. -/
def tankTarget : Target :=
  { char := deployedChar tankT .two 0, r := 0, c := 2, dist := 1 }

/-- A deployed healer on (0,1) next to a wounded ally at 40/90 hit points on
(0,2), with a far-away enemy on (7,6). -/
def healGrid : Grid := fun r c =>
  if r = 0 ∧ c = 1 then
    { owner := some .one, character := some (deployedChar healerT .one 0) }
  else if r = 0 ∧ c = 2 then
    { owner := some .one,
      character := some { deployedChar warriorT .one 1 with hp := 40, maxHp := 90 } }
  else if r = 7 ∧ c = 6 then
    { owner := some .two, character := some (deployedChar assassinT .two 0) }
  else {}

/-- The wounded ally of `healGrid` as the healer's ally entry. -/
def healTarget : Target :=
  { char := { deployedChar warriorT .one 1 with hp := 40, maxHp := 90 },
    r := 0, c := 2, dist := 1 }

/-- A grid where player 1 owns a single cell and it is occupied: the unit
cap is reached. -/
def wGrid5 : Grid := fun r c =>
  if r = 0 ∧ c = 0 then
    { owner := some .one, character := some (deployedChar warriorT .one 0) }
  else {}

/-- Player 1 shopping on `wGrid5` (cap reached, ample gold). -/
def wState5 : MatchState :=
  { grid := wGrid5, gold := ⟨20, 20⟩, hexBoughtThisTurn := ⟨false, false⟩,
    spawnCounter := ⟨1, 0⟩, step := .shopping .one }

/-- Player 1 shopping on the initial grid after having bought a hex this
turn. -/
def wState4 : MatchState :=
  { grid := createInitialGrid, gold := ⟨20, 20⟩, hexBoughtThisTurn := ⟨true, false⟩,
    spawnCounter := ⟨0, 0⟩, step := .shopping .one }

/-- A fresh player-1 shopping state on the initial grid. -/
def initialState : MatchState :=
  { grid := createInitialGrid, gold := ⟨INITIAL_GOLD, INITIAL_GOLD⟩,
    hexBoughtThisTurn := ⟨false, false⟩, spawnCounter := ⟨0, 0⟩,
    step := .shopping .one }

/-- A grid with several living units of both players, for scheduling
examples: player 1's warrior (spawn 0) on (2,0) and mage (spawn 1) on (1,1);
player 2's tank (spawn 0) on (6,6). -/
def schedGrid : Grid := fun r c =>
  if r = 2 ∧ c = 0 then
    { owner := some .one, character := some (deployedChar warriorT .one 0) }
  else if r = 1 ∧ c = 1 then
    { owner := some .one, character := some (deployedChar mageT .one 1) }
  else if r = 6 ∧ c = 6 then
    { owner := some .two, character := some (deployedChar tankT .two 0) }
  else {}

/-! ## Helper lemmas -/

theorem PerPlayer.get_set_same {α : Type} (s : PerPlayer α) (p : Player) (v : α) :
    (s.set p v).get p = v := by
  cases p <;> rfl

theorem setCharacter_owner (g : Grid) (r c : Nat) (v : Option Character) (r' c' : Nat) :
    (setCharacter g r c v r' c').owner = (g r' c').owner := by
  unfold setCharacter
  split <;> rfl

theorem setCharacter_at (g : Grid) (r c : Nat) (v : Option Character) :
    setCharacter g r c v r c = { g r c with character := v } := by
  unfold setCharacter
  rw [if_pos ⟨rfl, rfl⟩]

theorem setCharacter_ne (g : Grid) (r c : Nat) (v : Option Character) (r' c' : Nat)
    (h : ¬(r' = r ∧ c' = c)) : setCharacter g r c v r' c' = g r' c' := by
  unfold setCharacter
  rw [if_neg h]

theorem setOwner_at (g : Grid) (r c : Nat) (v : Option Player) :
    setOwner g r c v r c = { g r c with owner := v } := by
  unfold setOwner
  rw [if_pos ⟨rfl, rfl⟩]

theorem setOwner_ne (g : Grid) (r c : Nat) (v : Option Player) (r' c' : Nat)
    (h : ¬(r' = r ∧ c' = c)) : setOwner g r c v r' c' = g r' c' := by
  unfold setOwner
  rw [if_neg h]

theorem cheby_triangle (x1 y1 z1 x2 y2 z2 x3 y3 z3 : Int) :
    max |x1 - x3| (max |y1 - y3| |z1 - z3|)
      ≤ max |x1 - x2| (max |y1 - y2| |z1 - z2|)
        + max |x2 - x3| (max |y2 - y3| |z2 - z3|) := by
  apply max_le
  · exact le_trans (abs_sub_le x1 x2 x3)
      (add_le_add (le_max_left _ _) (le_max_left _ _))
  · apply max_le
    · exact le_trans (abs_sub_le y1 y2 y3)
        (add_le_add (le_max_of_le_right (le_max_left _ _))
          (le_max_of_le_right (le_max_left _ _)))
    · exact le_trans (abs_sub_le z1 z2 z3)
        (add_le_add (le_max_of_le_right (le_max_right _ _))
          (le_max_of_le_right (le_max_right _ _)))

/-! ## Claim theorems -/

/-- C9: `hexDistance` is a metric on board cells — zero on the diagonal,
symmetric, satisfying the triangle inequality — and its value is the
nonnegative cube-coordinate Chebyshev distance of the converted offset
coordinates. -/
theorem hexDistance_metric_spec :
    (∀ r c, hexDistance r c r c = 0)
    ∧ (∀ r1 c1 r2 c2, hexDistance r1 c1 r2 c2 = hexDistance r2 c2 r1 c1)
    ∧ (∀ r1 c1 r2 c2 r3 c3,
        hexDistance r1 c1 r3 c3
          ≤ hexDistance r1 c1 r2 c2 + hexDistance r2 c2 r3 c3)
    ∧ (∀ r1 c1 r2 c2, 0 ≤ hexDistance r1 c1 r2 c2)
    ∧ (∀ r1 c1 r2 c2,
        hexDistance r1 c1 r2 c2 = cubeChebyshev (toCube r1 c1) (toCube r2 c2)) := by
  refine ⟨?_, ?_, ?_, ?_, ?_⟩
  · intro r c
    simp [hexDistance]
  · intro r1 c1 r2 c2
    simp [hexDistance, abs_sub_comm]
  · intro r1 c1 r2 c2 r3 c3
    exact cheby_triangle _ _ _ _ _ _ _ _ _
  · intro r1 c1 r2 c2
    exact le_trans (abs_nonneg _) (le_max_left _ _)
  · intro r1 c1 r2 c2
    rfl

/-- C7: at round end, past the round limit the match resolves by summed
remaining hit points (strictly higher wins, equal is a draw) with no
interest; otherwise each player's gold becomes
`min(goldCap, gold + gold/10 + stipend)` and the next turn starts at
player-1 shopping. -/
theorem goToNextTurn_spec (cfg : GameConfig) (turn : Nat) (g : Grid)
    (gold : PerPlayer Nat) :
    (cfg.maxTurns < turn + 1 → goToNextTurn cfg turn g gold = .over (hpWinner g))
    ∧ (turn + 1 ≤ cfg.maxTurns →
        goToNextTurn cfg turn g gold =
          .nextRound (turn + 1)
            ⟨min cfg.maxGold (gold.one + gold.one / 10 + 5),
             min cfg.maxGold (gold.two + gold.two / 10 + 5)⟩
            (.shopping .one))
    ∧ (playerHp g .two < playerHp g .one → hpWinner g = some .one)
    ∧ (playerHp g .one < playerHp g .two → hpWinner g = some .two)
    ∧ (playerHp g .one = playerHp g .two → hpWinner g = none) := by
  refine ⟨?_, ?_, ?_, ?_, ?_⟩
  · intro h
    simp [goToNextTurn, h]
  · intro h
    simp [goToNextTurn, settleGold, Nat.not_lt.mpr h]
  · intro h
    simp [hpWinner, h]
  · intro h
    unfold hpWinner
    rw [if_neg (by exact not_lt.mpr (le_of_lt h)), if_pos h]
  · intro h
    unfold hpWinner
    rw [if_neg (by omega), if_neg (by omega)]

/-- C4: after a player's territory purchase this round, any further purchase
attempt by the same player in the same round leaves the whole state
unchanged, regardless of gold; and any purchase that does change the state
leaves the flag set. -/
theorem buyHex_once_per_round (s : MatchState) (r c : Nat) (p : Player)
    (hstep : s.step = .shopping p) :
    (s.hexBoughtThisTurn.get p = true → buyHex s r c = s)
    ∧ (buyHex s r c = s ∨ (buyHex s r c).hexBoughtThisTurn.get p = true) := by
  unfold buyHex
  rw [hstep]
  dsimp only
  split_ifs with hguard
  · refine ⟨fun hflag => ?_, Or.inr ?_⟩
    · rw [hguard.2.2.1] at hflag
      cases hflag
    · exact PerPlayer.get_set_same _ _ _
  · exact ⟨fun _ => rfl, Or.inl rfl⟩

theorem allPositions_nodup : allPositions.Nodup := by decide

theorem countP_update (f f' : (Nat × Nat) → Bool) :
    ∀ (l : List (Nat × Nat)), l.Nodup → ∀ pos : Nat × Nat, pos ∈ l →
    (∀ q ∈ l, q ≠ pos → f' q = f q) →
    l.countP f' + (if f pos then 1 else 0) = l.countP f + (if f' pos then 1 else 0) := by
  intro l
  induction l with
  | nil =>
    intro _ pos hmem _
    cases hmem
  | cons a l ih =>
    intro hnd pos hmem hag
    rw [List.countP_cons, List.countP_cons]
    rcases List.mem_cons.mp hmem with heq | hmem'
    · subst heq
      have hnotin : pos ∉ l := (List.nodup_cons.mp hnd).1
      have hcong : l.countP f' = l.countP f := by
        apply List.countP_congr
        intro x hx
        rw [hag x (List.mem_cons_of_mem pos hx) (fun h => hnotin (h ▸ hx))]
      rw [hcong]
      omega
    · have hne : a ≠ pos := by
        rintro rfl
        exact (List.nodup_cons.mp hnd).1 hmem'
      have ha : f' a = f a := hag a (List.mem_cons_self a l) hne
      have hih := ih (List.nodup_cons.mp hnd).2 pos hmem'
        (fun q hq hqne => hag q (List.mem_cons_of_mem a hq) hqne)
      rw [ha]
      omega

theorem cellOk_iff (cell : HexCell) :
    cellOk cell ↔ ∀ ch, cell.character = some ch → cell.owner = ch.owner := by
  unfold cellOk
  cases h : cell.character with
  | none => simp
  | some ch => simp

theorem cellOwned_iff (cell : HexCell) :
    cellOwned cell ↔ ∀ ch, cell.character = some ch → ch.owner ≠ none := by
  unfold cellOwned
  cases h : cell.character with
  | none => simp
  | some ch => simp

/-- C5: deployment is rejected whenever the player's occupied-cell count has
reached the owned-cell count, and (for every player) a deployment never
pushes the occupied-cell count above the owned-cell count. -/
theorem placeCharacter_cap_spec :
    (∀ (s : MatchState) (r c : Nat) (t : Character) (p : Player),
        s.step = .shopping p →
        maxUnits s.grid p ≤ charOnBoard s.grid p →
        placeCharacter s r c t = s)
    ∧ (∀ (s : MatchState) (r c : Nat) (t : Character) (q : Player),
        charOnBoard s.grid q ≤ maxUnits s.grid q →
        charOnBoard (placeCharacter s r c t).grid q
          ≤ maxUnits (placeCharacter s r c t).grid q) := by
  constructor
  · intro s r c t p hstep hcap
    unfold placeCharacter
    rw [hstep]
    dsimp only
    rw [if_neg]
    intro hguard
    exact absurd hguard.2.2.2 (not_lt.mpr hcap)
  · intro s r c t q hle
    unfold placeCharacter
    cases hstep : s.step with
    | shopping p =>
      dsimp only
      split_ifs with hguard
      · dsimp only
        unfold charOnBoard maxUnits ownedCount at hguard hle ⊢
        have howned :
            allPositions.countP (fun pos =>
              decide ((setCharacter s.grid r c
                (some (deployedChar t p (s.spawnCounter.get p))) pos.1 pos.2).owner = some q))
            = allPositions.countP (fun pos =>
                decide ((s.grid pos.1 pos.2).owner = some q)) := by
          apply List.countP_congr
          intro x _
          dsimp only
          rw [setCharacter_owner]
        rw [howned]
        by_cases hmem : (r, c) ∈ allPositions
        · have hupd := countP_update
            (fun pos => decide ((s.grid pos.1 pos.2).owner = some q
              ∧ (s.grid pos.1 pos.2).character ≠ none))
            (fun pos => decide ((setCharacter s.grid r c
                (some (deployedChar t p (s.spawnCounter.get p))) pos.1 pos.2).owner = some q
              ∧ (setCharacter s.grid r c
                (some (deployedChar t p (s.spawnCounter.get p))) pos.1 pos.2).character ≠ none))
            allPositions allPositions_nodup (r, c) hmem
            (fun x _ hxne => by
              dsimp only
              rw [setCharacter_ne s.grid r c _ x.1 x.2
                (fun hc => hxne (Prod.ext hc.1 hc.2))])
          by_cases hpq : q = p
          · subst hpq
            have hold : (fun pos => decide ((s.grid pos.1 pos.2).owner = some q
                ∧ (s.grid pos.1 pos.2).character ≠ none)) (r, c) = false := by
              simp [hguard.2.1]
            have hnew : (fun pos => decide ((setCharacter s.grid r c
                (some (deployedChar t q (s.spawnCounter.get q))) pos.1 pos.2).owner = some q
              ∧ (setCharacter s.grid r c
                (some (deployedChar t q (s.spawnCounter.get q))) pos.1 pos.2).character
                  ≠ none)) (r, c) = true := by
              simp only []
              rw [setCharacter_at]
              simp [hguard.1]
            rw [hold, hnew] at hupd
            simp only [Bool.false_eq_true, if_false, if_true] at hupd
            omega
          · have hold : (fun pos => decide ((s.grid pos.1 pos.2).owner = some q
                ∧ (s.grid pos.1 pos.2).character ≠ none)) (r, c) = false := by
              simp only []
              apply decide_eq_false
              rw [hguard.1]
              rintro ⟨h, -⟩
              exact hpq (Option.some.inj h).symm
            have hnew : (fun pos => decide ((setCharacter s.grid r c
                (some (deployedChar t p (s.spawnCounter.get p))) pos.1 pos.2).owner = some q
              ∧ (setCharacter s.grid r c
                (some (deployedChar t p (s.spawnCounter.get p))) pos.1 pos.2).character
                  ≠ none)) (r, c) = false := by
              simp only []
              apply decide_eq_false
              rw [setCharacter_at]
              rintro ⟨h, -⟩
              rw [show ({ s.grid r c with
                character := some (deployedChar t p (s.spawnCounter.get p)) } : HexCell).owner
                  = (s.grid r c).owner from rfl, hguard.1] at h
              exact hpq (Option.some.inj h).symm
            rw [hold, hnew] at hupd
            simp only [Bool.false_eq_true, if_false] at hupd
            omega
        · have hsame :
              allPositions.countP (fun pos =>
                decide ((setCharacter s.grid r c
                  (some (deployedChar t p (s.spawnCounter.get p))) pos.1 pos.2).owner = some q
                ∧ (setCharacter s.grid r c
                  (some (deployedChar t p (s.spawnCounter.get p))) pos.1 pos.2).character
                    ≠ none))
              = allPositions.countP (fun pos =>
                  decide ((s.grid pos.1 pos.2).owner = some q
                    ∧ (s.grid pos.1 pos.2).character ≠ none)) := by
            apply List.countP_congr
            intro x hx
            dsimp only
            rw [setCharacter_ne s.grid r c _ x.1 x.2
              (fun hc => hmem (by
                have hxeq : x = (r, c) := Prod.ext hc.1 hc.2
                rw [← hxeq]
                exact hx))]
          rw [hsame]
          exact hle
      · exact hle
    | executing f =>
      dsimp only
      exact hle
    | gameOver =>
      dsimp only
      exact hle

/-- C1 (amended): territory purchase and unit deployment preserve the
cell-ownership invariant (on states whose occupants all carry an owner, as
every deployed unit does). The movement step of combat resolution does not
preserve it — see the counterexample. -/
theorem ownership_invariant_shop (s : MatchState) (r c : Nat) (t : Character)
    (h1 : OwnerInvariant s.grid) (h2 : OccupantsOwned s.grid) :
    OwnerInvariant (buyHex s r c).grid ∧ OwnerInvariant (placeCharacter s r c t).grid := by
  constructor
  · unfold buyHex
    cases hstep : s.step with
    | shopping p =>
      dsimp only
      split_ifs with hguard
      · intro pos hpos
        dsimp only
        by_cases hpc : pos.1 = r ∧ pos.2 = c
        · have hcell : setOwner s.grid r c (some p) pos.1 pos.2
              = { s.grid pos.1 pos.2 with owner := some p } := by
            unfold setOwner
            rw [if_pos hpc]
          rw [hcell, cellOk_iff]
          intro ch hch
          exfalso
          have hownnone : (s.grid pos.1 pos.2).owner = none := by
            rw [hpc.1, hpc.2]
            exact hguard.1
          have hok := (cellOk_iff _).mp (h1 pos hpos) ch hch
          have hown := (cellOwned_iff _).mp (h2 pos hpos) ch hch
          rw [hownnone] at hok
          exact hown hok.symm
        · have hcell : setOwner s.grid r c (some p) pos.1 pos.2 = s.grid pos.1 pos.2 :=
            setOwner_ne _ _ _ _ _ _ hpc
          rw [hcell]
          exact h1 pos hpos
      · exact h1
    | executing f =>
      dsimp only
      exact h1
    | gameOver =>
      dsimp only
      exact h1
  · unfold placeCharacter
    cases hstep : s.step with
    | shopping p =>
      dsimp only
      split_ifs with hguard
      · intro pos hpos
        dsimp only
        by_cases hpc : pos.1 = r ∧ pos.2 = c
        · have hcell : setCharacter s.grid r c
              (some (deployedChar t p (s.spawnCounter.get p))) pos.1 pos.2
              = { s.grid pos.1 pos.2 with
                  character := some (deployedChar t p (s.spawnCounter.get p)) } := by
            unfold setCharacter
            rw [if_pos hpc]
          rw [hcell, cellOk_iff]
          intro ch hch
          have hcheq : ch = deployedChar t p (s.spawnCounter.get p) :=
            (Option.some.inj hch).symm
          rw [hcheq]
          show (s.grid pos.1 pos.2).owner = some p
          rw [hpc.1, hpc.2]
          exact hguard.1
        · have hcell : setCharacter s.grid r c
              (some (deployedChar t p (s.spawnCounter.get p))) pos.1 pos.2
              = s.grid pos.1 pos.2 :=
            setCharacter_ne _ _ _ _ _ _ hpc
          rw [hcell]
          exact h1 pos hpos
      · exact h1
    | executing f =>
      dsimp only
      exact h1
    | gameOver =>
      dsimp only
      exact h1

/-- C1 (counterexample): on a reachable round-1 battle grid the ownership
invariant holds, yet after the acting warrior's movement step it fails — the
warrior relocates onto an unowned cell. -/
theorem ownership_movement_cex :
    OwnerInvariant cexGrid ∧ OccupantsOwned cexGrid
    ∧ (executeCharAction cexGrid 2 0).2 = "Moving toward 🗡️Assassin"
    ∧ ¬ OwnerInvariant (executeCharAction cexGrid 2 0).1 := by
  decide

theorem schedule_invariant : ∀ st, PhaseReachable st → SchedulePoint st := by
  intro st h
  induction h with
  | refl =>
    exact Or.inl ⟨rfl, Or.inl rfl⟩
  | tail _ htrans ih =>
    cases htrans with
    | done t p =>
      rcases ih with ⟨ht1, _⟩ | ⟨ht2, _⟩
      · subst ht1
        cases p
        · exact Or.inl ⟨rfl, Or.inr (Or.inl rfl)⟩
        · exact Or.inl ⟨rfl, Or.inr (Or.inr rfl)⟩
      · have ht1 : t ≠ 1 := by omega
        cases p
        · simp only [handleDone, if_neg ht1]
          exact Or.inr ⟨ht2, Or.inr (Or.inl rfl)⟩
        · simp only [handleDone, if_neg ht1]
          exact Or.inr ⟨ht2, Or.inr (Or.inr (Or.inr rfl))⟩
    | execDone t f =>
      rcases ih with ⟨ht1, hs⟩ | ⟨ht2, hs⟩
      · subst ht1
        have hf : f = .all := by
          rcases hs with h | h | h
          · cases h
          · cases h
          · exact GameStep.executing.inj h
        subst hf
        exact le_refl 1
      · have ht1 : t ≠ 1 := by omega
        rcases hs with h | h | h | h
        · cases h
        · have hf : f = .single .one := GameStep.executing.inj h
          subst hf
          simp only [execDoneTarget, handleExecDone, if_neg ht1]
          exact Or.inr ⟨ht2, Or.inr (Or.inr (Or.inl rfl))⟩
        · cases h
        · have hf : f = .single .two := GameStep.executing.inj h
          subst hf
          simp only [execDoneTarget, handleExecDone, if_neg ht1]
          show 1 ≤ t
          omega
    | nextTurn t =>
      have : 1 ≤ t := ih
      exact Or.inr ⟨by omega, Or.inl rfl⟩

/-- C2: round 1 follows Shopping(1) → Shopping(2) → Executing(all) →
round end; every later round follows Shopping(1) → Executing(1) →
Shopping(2) → Executing(2) → round end; and no other phase transition
occurs from a reachable shopping or executing state. -/
theorem phase_schedule_spec :
    (handleDone 1 (.shopping .one) = .shopping .two)
    ∧ (handleDone 1 (.shopping .two) = .executing .all)
    ∧ (handleExecDone 1 (.executing .all) = .toRoundEnd)
    ∧ (∀ t, 2 ≤ t →
        handleDone t (.shopping .one) = .executing (.single .one)
        ∧ handleExecDone t (.executing (.single .one)) = .toStep (.shopping .two)
        ∧ handleDone t (.shopping .two) = .executing (.single .two)
        ∧ handleExecDone t (.executing (.single .two)) = .toRoundEnd)
    ∧ (∀ st st', PhaseReachable st → PhaseTrans st st' →
        (st = .mid 1 (.shopping .one) ∧ st' = .mid 1 (.shopping .two))
        ∨ (st = .mid 1 (.shopping .two) ∧ st' = .mid 1 (.executing .all))
        ∨ (st = .mid 1 (.executing .all) ∧ st' = .roundEnd 1)
        ∨ (∃ t, 2 ≤ t
            ∧ ((st = .mid t (.shopping .one) ∧ st' = .mid t (.executing (.single .one)))
              ∨ (st = .mid t (.executing (.single .one)) ∧ st' = .mid t (.shopping .two))
              ∨ (st = .mid t (.shopping .two) ∧ st' = .mid t (.executing (.single .two)))
              ∨ (st = .mid t (.executing (.single .two)) ∧ st' = .roundEnd t)))
        ∨ (∃ t, st = .roundEnd t ∧ st' = .mid (t + 1) (.shopping .one))) := by
  refine ⟨rfl, rfl, rfl, ?_, ?_⟩
  · intro t ht
    have ht1 : t ≠ 1 := by omega
    refine ⟨?_, ?_, ?_, ?_⟩ <;> simp [handleDone, handleExecDone, ht1]
  · intro st st' hr htrans
    have hsp := schedule_invariant st hr
    cases htrans with
    | done t p =>
      rcases hsp with ⟨ht1, _⟩ | ⟨ht2, _⟩
      · subst ht1
        cases p
        · exact Or.inl ⟨rfl, rfl⟩
        · exact Or.inr (Or.inl ⟨rfl, rfl⟩)
      · have ht1 : t ≠ 1 := by omega
        cases p
        · refine Or.inr (Or.inr (Or.inr (Or.inl ⟨t, ht2, Or.inl ⟨rfl, ?_⟩⟩)))
          simp [handleDone, ht1]
        · refine Or.inr (Or.inr (Or.inr (Or.inl ⟨t, ht2, Or.inr (Or.inr (Or.inl ⟨rfl, ?_⟩))⟩)))
          simp [handleDone, ht1]
    | execDone t f =>
      rcases hsp with ⟨ht1, hs⟩ | ⟨ht2, hs⟩
      · subst ht1
        have hf : f = .all := by
          rcases hs with h | h | h
          · cases h
          · cases h
          · exact GameStep.executing.inj h
        subst hf
        exact Or.inr (Or.inr (Or.inl ⟨rfl, rfl⟩))
      · have ht1 : t ≠ 1 := by omega
        rcases hs with h | h | h | h
        · cases h
        · have hf : f = .single .one := GameStep.executing.inj h
          subst hf
          refine Or.inr (Or.inr (Or.inr (Or.inl ⟨t, ht2, Or.inr (Or.inl ⟨rfl, ?_⟩)⟩)))
          simp [execDoneTarget, handleExecDone, ht1]
        · cases h
        · have hf : f = .single .two := GameStep.executing.inj h
          subst hf
          refine Or.inr (Or.inr (Or.inr (Or.inl ⟨t, ht2, Or.inr (Or.inr (Or.inr ⟨rfl, ?_⟩))⟩)))
          simp [execDoneTarget, handleExecDone, ht1]
    | nextTurn t =>
      exact Or.inr (Or.inr (Or.inr (Or.inr ⟨t, rfl, rfl⟩)))

theorem filter_scan_aux (g : Grid) (p : Player) (l : List (Nat × Nat)) :
    (l.filterMap (scanFun g .all)).filter (fun e => decide (e.char.owner = some p))
      = l.filterMap (scanFun g (.single p)) := by
  induction l with
  | nil => rfl
  | cons a l ih =>
    rw [List.filterMap_cons, List.filterMap_cons]
    cases hch : (g a.1 a.2).character with
    | none =>
      simpa [scanFun, hch] using ih
    | some ch =>
      by_cases h1 : 0 < ch.hp
      · by_cases h2 : ch.owner = some p
        · simp [scanFun, hch, h1, h2, livingFilter, ih]
        · simp [scanFun, hch, h1, h2, livingFilter, ih]
      · simp [scanFun, hch, h1, livingFilter, ih]

theorem scan_filter_single (g : Grid) (p : Player) :
    (scanLiving g .all).filter (fun e => decide (e.char.owner = some p))
      = scanLiving g (.single p) :=
  filter_scan_aux g p allPositions

theorem mem_scanLiving {g : Grid} {f : PlayerFilter} {e : OrderEntry}
    (h : e ∈ scanLiving g f) :
    (g e.r e.c).character = some e.char ∧ 0 < e.char.hp
      ∧ livingFilter f e.char = true := by
  obtain ⟨pos, _, heq⟩ := List.mem_filterMap.mp h
  unfold scanFun at heq
  cases hch : (g pos.1 pos.2).character with
  | none =>
    rw [hch] at heq
    cases heq
  | some ch =>
    rw [hch] at heq
    dsimp only at heq
    by_cases hcond : 0 < ch.hp ∧ livingFilter f ch = true
    · rw [if_pos hcond] at heq
      cases heq
      exact ⟨hch, hcond.1, hcond.2⟩
    · rw [if_neg hcond] at heq
      cases heq

/-- C6: the execution schedule with filter "all" contains exactly the living
units and, on an odd round index, lists all of player 1's living units
(ascending spawn order) before player 2's — on an even index the reverse;
with a single-player filter only that player's living units appear, in
ascending spawn order. -/
theorem getExecutionOrder_spec (g : Grid) (turn : Nat) :
    (turn % 2 = 1 →
      getExecutionOrder g .all turn = sortedLiving g .one ++ sortedLiving g .two)
    ∧ (turn % 2 ≠ 1 →
      getExecutionOrder g .all turn = sortedLiving g .two ++ sortedLiving g .one)
    ∧ (∀ p, getExecutionOrder g (.single p) turn = sortedLiving g p)
    ∧ (∀ p, (sortedLiving g p).Perm (scanLiving g (.single p)))
    ∧ (∀ p, (sortedLiving g p).Sorted spawnLe)
    ∧ (∀ p e, e ∈ sortedLiving g p → e.char.owner = some p ∧ 0 < e.char.hp)
    ∧ ((∀ e ∈ scanLiving g .all, e.char.owner ≠ none) →
        (getExecutionOrder g .all turn).Perm (scanLiving g .all)) := by
  have hmemp : ∀ p e, e ∈ sortedLiving g p → e.char.owner = some p ∧ 0 < e.char.hp := by
    intro p e he
    have he' : e ∈ scanLiving g (.single p) :=
      (List.perm_insertionSort spawnLe _).mem_iff.mp he
    obtain ⟨_, hhp, hlf⟩ := mem_scanLiving he'
    exact ⟨of_decide_eq_true hlf, hhp⟩
  have hodd : turn % 2 = 1 →
      getExecutionOrder g .all turn = sortedLiving g .one ++ sortedLiving g .two := by
    intro h
    unfold getExecutionOrder sortedLiving
    rw [← scan_filter_single g .one, ← scan_filter_single g .two]
    simp [h]
  have heven : turn % 2 ≠ 1 →
      getExecutionOrder g .all turn = sortedLiving g .two ++ sortedLiving g .one := by
    intro h
    unfold getExecutionOrder sortedLiving
    rw [← scan_filter_single g .one, ← scan_filter_single g .two]
    simp [h]
  refine ⟨hodd, heven, fun p => rfl, fun p => List.perm_insertionSort spawnLe _,
    fun p => List.sorted_insertionSort spawnLe _, hmemp, ?_⟩
  intro hOwn
  have hsplit1 : (scanLiving g .all).filter
      (fun e => decide (e.char.owner = some .two))
      = (scanLiving g .all).filter
        (fun e => !(decide (e.char.owner = some .one))) := by
    apply List.filter_congr
    intro x hx
    cases howner : x.char.owner with
    | none => exact absurd howner (hOwn x hx)
    | some pl => cases pl <;> simp [howner]
  have hsplit2 : (scanLiving g .all).filter
      (fun e => decide (e.char.owner = some .one))
      = (scanLiving g .all).filter
        (fun e => !(decide (e.char.owner = some .two))) := by
    apply List.filter_congr
    intro x hx
    cases howner : x.char.owner with
    | none => exact absurd howner (hOwn x hx)
    | some pl => cases pl <;> simp [howner]
  by_cases h : turn % 2 = 1
  · rw [hodd h]
    refine ((List.perm_insertionSort spawnLe _).append
      (List.perm_insertionSort spawnLe _)).trans ?_
    rw [← scan_filter_single g .one, ← scan_filter_single g .two, hsplit1]
    exact List.filter_append_perm _ _
  · rw [heven h]
    refine ((List.perm_insertionSort spawnLe _).append
      (List.perm_insertionSort spawnLe _)).trans ?_
    rw [← scan_filter_single g .two, ← scan_filter_single g .one, hsplit2]
    exact List.filter_append_perm _ _

theorem sorted_head_min {α : Type} (r : α → α → Prop) [DecidableRel r] [IsTotal α r]
    [IsTrans α r] [IsRefl α r] {l : List α} {x : α} {xs : List α}
    (h : l.insertionSort r = x :: xs) : ∀ a ∈ l, r x a := by
  intro a ha
  have hperm := List.perm_insertionSort r l
  have ha' : a ∈ x :: xs := by
    rw [← h]
    exact hperm.mem_iff.mpr ha
  rcases List.mem_cons.mp ha' with rfl | hmem
  · exact IsRefl.refl a
  · have hs := List.sorted_insertionSort r l
    rw [h] at hs
    exact List.rel_of_pairwise_cons hs hmem

theorem mem_alliesOf {g : Grid} {cr cc : Nat} {me : Character} {a : Target}
    (h : a ∈ alliesOf g cr cc me) :
    (g a.r a.c).character = some a.char ∧ 0 < a.char.hp ∧ a.char.owner = me.owner
      ∧ ¬(a.r = cr ∧ a.c = cc) := by
  unfold alliesOf at h
  obtain ⟨pos, _, heq⟩ := List.mem_filterMap.mp h
  cases hch : (g pos.1 pos.2).character with
  | none =>
    rw [hch] at heq
    cases heq
  | some ch =>
    rw [hch] at heq
    dsimp only at heq
    by_cases hcond : 0 < ch.hp ∧ ch.owner = me.owner ∧ ¬(pos.1 = cr ∧ pos.2 = cc)
    · rw [if_pos hcond] at heq
      cases heq
      exact ⟨hch, hcond.1, hcond.2.1, hcond.2.2⟩
    · rw [if_neg hcond] at heq
      cases heq

theorem enemiesByDist_cons_ne_nil {l : List Target} {e : Target} {rest : List Target}
    (h : enemiesByDist l = e :: rest) : l ≠ [] := by
  intro h0
  rw [h0] at h
  simp [enemiesByDist] at h

/-- C3: when the acting unit's chosen (nearest) enemy target is at hex
distance ≤ 1, the action deals `max(1, atk − def)` damage: the target is
removed from its cell and a kill is reported when its hit points drop to 0
or below, otherwise a hit with the remaining hit points is reported. In
particular 15 attack vs 20 defense deals 1, 30 vs 20 deals 10, and 8 vs 3
deals 5. -/
theorem executeCharAction_attack_spec (g : Grid) (cr cc : Nat) (me : Character)
    (e : Target) (rest : List Target)
    (hme : (g cr cc).character = some me)
    (hheal : healDispatch me = false ∨ woundedSorted (alliesOf g cr cc me) = [])
    (hsort : enemiesByDist (enemiesOf g cr cc me) = e :: rest)
    (hdist : e.dist ≤ 1) :
    (executeCharAction g cr cc =
      (if e.char.hp - damage me.atk e.char.defense ≤ 0 then
        (setCharacter g e.r e.c none,
         "Attacked " ++ e.char.emoji ++ e.char.name ++ " for "
           ++ toString (damage me.atk e.char.defense) ++ " dmg — KILLED!")
      else
        (setCharacter g e.r e.c
           (some { e.char with hp := e.char.hp - damage me.atk e.char.defense }),
         "Attacked " ++ e.char.emoji ++ e.char.name ++ " for "
           ++ toString (damage me.atk e.char.defense) ++ " dmg ("
           ++ toString (e.char.hp - damage me.atk e.char.defense) ++ "HP left)")))
    ∧ (∀ x ∈ enemiesOf g cr cc me, e.dist ≤ x.dist)
    ∧ damage 15 20 = 1 ∧ damage 30 20 = 10 ∧ damage 8 3 = 5 := by
  have hne : enemiesOf g cr cc me ≠ [] := enemiesByDist_cons_ne_nil hsort
  have hmin : ∀ x ∈ enemiesOf g cr cc me, e.dist ≤ x.dist := by
    intro x hx
    exact sorted_head_min distLe hsort x hx
  refine ⟨?_, hmin, by decide, by decide, by decide⟩
  have hattack : attackNearest g me cr cc (enemiesOf g cr cc me) =
      (if e.char.hp - damage me.atk e.char.defense ≤ 0 then
        (setCharacter g e.r e.c none,
         "Attacked " ++ e.char.emoji ++ e.char.name ++ " for "
           ++ toString (damage me.atk e.char.defense) ++ " dmg — KILLED!")
      else
        (setCharacter g e.r e.c
           (some { e.char with hp := e.char.hp - damage me.atk e.char.defense }),
         "Attacked " ++ e.char.emoji ++ e.char.name ++ " for "
           ++ toString (damage me.atk e.char.defense) ++ " dmg ("
           ++ toString (e.char.hp - damage me.atk e.char.defense) ++ "HP left)")) := by
    unfold attackNearest
    rw [hsort]
    dsimp only
    rw [if_pos hdist]
  unfold executeCharAction
  rw [hme]
  dsimp only
  rw [if_neg hne]
  rcases hheal with hh | hw
  · rw [hh]
    simp only [Bool.false_eq_true, if_false]
    exact hattack
  · rw [hw]
    dsimp only
    by_cases hd : healDispatch me = true
    · rw [if_pos hd]
      exact hattack
    · rw [if_neg hd]
      exact hattack

/-- C8: a heal-strategy unit acting with enemies alive selects the wounded
ally with the lowest current hit points; when that ally is within hex
distance ≤ 2 it is healed by the actor's attack stat capped at its maximum
hit points, and the actor does not move. -/
theorem executeCharAction_heal_spec (g : Grid) (cr cc : Nat) (me : Character)
    (w : Target) (ws : List Target)
    (hme : (g cr cc).character = some me)
    (hene : enemiesOf g cr cc me ≠ [])
    (hd : healDispatch me = true)
    (hw : woundedSorted (alliesOf g cr cc me) = w :: ws)
    (hdist : w.dist ≤ 2) :
    executeCharAction g cr cc =
      (setCharacter g w.r w.c
         (some { w.char with hp := min w.char.maxHp (w.char.hp + me.atk) }),
       "Healed " ++ w.char.emoji ++ w.char.name ++ " +" ++ toString me.atk ++ "HP")
    ∧ (g w.r w.c).character = some w.char
    ∧ w.char.owner = me.owner
    ∧ w.char.hp < w.char.maxHp
    ∧ (∀ a ∈ alliesOf g cr cc me, a.char.hp < a.char.maxHp → w.char.hp ≤ a.char.hp)
    ∧ ¬(w.r = cr ∧ w.c = cc)
    ∧ ((executeCharAction g cr cc).1 cr cc).character = some me := by
  have hw' : ((alliesOf g cr cc me).filter
      (fun a => decide (a.char.hp < a.char.maxHp))).insertionSort hpLe = w :: ws := hw
  have hwmem : w ∈ (alliesOf g cr cc me).filter
      (fun a => decide (a.char.hp < a.char.maxHp)) := by
    have hmem : w ∈ ((alliesOf g cr cc me).filter
        (fun a => decide (a.char.hp < a.char.maxHp))).insertionSort hpLe := by
      rw [hw']
      exact List.mem_cons_self _ _
    exact (List.perm_insertionSort hpLe _).mem_iff.mp hmem
  have hwallies : w ∈ alliesOf g cr cc me := (List.mem_filter.mp hwmem).1
  have hwound : w.char.hp < w.char.maxHp :=
    of_decide_eq_true ((List.mem_filter.mp hwmem).2)
  obtain ⟨hwchar, _, hwowner, hwne⟩ := mem_alliesOf hwallies
  have hminhp : ∀ a ∈ alliesOf g cr cc me, a.char.hp < a.char.maxHp →
      w.char.hp ≤ a.char.hp := by
    intro a ha hawound
    have hamem : a ∈ (alliesOf g cr cc me).filter
        (fun a => decide (a.char.hp < a.char.maxHp)) :=
      List.mem_filter.mpr ⟨ha, decide_eq_true hawound⟩
    exact sorted_head_min hpLe hw' a hamem
  have hexec : executeCharAction g cr cc =
      (setCharacter g w.r w.c
         (some { w.char with hp := min w.char.maxHp (w.char.hp + me.atk) }),
       "Healed " ++ w.char.emoji ++ w.char.name ++ " +" ++ toString me.atk ++ "HP") := by
    unfold executeCharAction
    rw [hme]
    dsimp only
    rw [if_neg hene, if_pos hd, hw]
    dsimp only
    rw [if_pos hdist]
  refine ⟨hexec, hwchar, hwowner, hwound, hminhp, hwne, ?_⟩
  rw [hexec]
  dsimp only
  rw [setCharacter_ne _ _ _ _ _ _ (fun hc => hwne ⟨hc.1.symm, hc.2.symm⟩)]
  exact hme

/-- C10: deployment always assigns the strategy tag "attack nearest" — also
to units built from the Healer template — yet a deployed Healer still heals,
because combat resolution dispatches on the template id "healer" (or on a
strategy string containing "heal"), not solely on the assigned tag. -/
theorem deployed_strategy_spec :
    (∀ t p n, (deployedChar t p n).strategy = some "attack nearest")
    ∧ (∀ p n, healDispatch (deployedChar healerT p n) = true)
    ∧ containsSeq "heal".data (lowerStr "attack nearest").data = false
    ∧ (∀ p n, healDispatch (deployedChar warriorT p n) = false)
    ∧ (∀ ch, healDispatch ch
        = (decide (ch.id = "healer")
            || containsSeq "heal".data (lowerStr (strategyOf ch)).data))
    ∧ (executeCharAction healGrid 0 1).2 = "Healed ⚔️Warrior +10HP" := by
  refine ⟨fun t p n => rfl, fun p n => ?_, by decide, fun p n => ?_,
    fun ch => rfl, by decide⟩
  · show (decide ("healer" = "healer")
      || containsSeq "heal".data (lowerStr "attack nearest").data) = true
    decide
  · show (decide ("warrior" = "healer")
      || containsSeq "heal".data (lowerStr "attack nearest").data) = false
    decide

/-! ## Witnesses -/

theorem phase_schedule_spec_witness :
    (handleDone 2 (.shopping .one) = .executing (.single .one)
      ∧ handleExecDone 2 (.executing (.single .one)) = .toStep (.shopping .two)
      ∧ handleDone 2 (.shopping .two) = .executing (.single .two)
      ∧ handleExecDone 2 (.executing (.single .two)) = .toRoundEnd)
    ∧ ((PhasePoint.mid 1 (.shopping .one) = .mid 1 (.shopping .one)
          ∧ PhasePoint.mid 1 (.shopping .two) = .mid 1 (.shopping .two))
      ∨ (PhasePoint.mid 1 (.shopping .one) = .mid 1 (.shopping .two)
          ∧ PhasePoint.mid 1 (.shopping .two) = .mid 1 (.executing .all))
      ∨ (PhasePoint.mid 1 (.shopping .one) = .mid 1 (.executing .all)
          ∧ PhasePoint.mid 1 (.shopping .two) = .roundEnd 1)
      ∨ (∃ t, 2 ≤ t
          ∧ ((PhasePoint.mid 1 (.shopping .one) = .mid t (.shopping .one)
                ∧ PhasePoint.mid 1 (.shopping .two) = .mid t (.executing (.single .one)))
            ∨ (PhasePoint.mid 1 (.shopping .one) = .mid t (.executing (.single .one))
                ∧ PhasePoint.mid 1 (.shopping .two) = .mid t (.shopping .two))
            ∨ (PhasePoint.mid 1 (.shopping .one) = .mid t (.shopping .two)
                ∧ PhasePoint.mid 1 (.shopping .two) = .mid t (.executing (.single .two)))
            ∨ (PhasePoint.mid 1 (.shopping .one) = .mid t (.executing (.single .two))
                ∧ PhasePoint.mid 1 (.shopping .two) = .roundEnd t)))
      ∨ (∃ t, PhasePoint.mid 1 (.shopping .one) = .roundEnd t
          ∧ PhasePoint.mid 1 (.shopping .two) = .mid (t + 1) (.shopping .one))) :=
  ⟨phase_schedule_spec.2.2.2.1 2 (by decide),
   phase_schedule_spec.2.2.2.2 (.mid 1 (.shopping .one)) (.mid 1 (.shopping .two))
     Relation.ReflTransGen.refl (PhaseTrans.done 1 .one)⟩

theorem goToNextTurn_spec_witness :
    ((10 : Nat) < 10 + 1
      ∧ goToNextTurn ⟨10, 50⟩ 10 wGrid5 ⟨20, 30⟩ = .over (hpWinner wGrid5))
    ∧ (playerHp wGrid5 .two < playerHp wGrid5 .one ∧ hpWinner wGrid5 = some .one)
    ∧ (5 + 1 ≤ (10 : Nat)
      ∧ goToNextTurn ⟨10, 50⟩ 5 wGrid5 ⟨20, 30⟩ =
          .nextRound 6 ⟨min 50 (20 + 20 / 10 + 5), min 50 (30 + 30 / 10 + 5)⟩
            (.shopping .one)) :=
  ⟨⟨by decide, (goToNextTurn_spec ⟨10, 50⟩ 10 wGrid5 ⟨20, 30⟩).1 (by decide)⟩,
   ⟨by decide, (goToNextTurn_spec ⟨10, 50⟩ 10 wGrid5 ⟨20, 30⟩).2.2.1 (by decide)⟩,
   ⟨by decide, (goToNextTurn_spec ⟨10, 50⟩ 5 wGrid5 ⟨20, 30⟩).2.1 (by decide)⟩⟩

theorem buyHex_once_per_round_witness :
    wState4.step = .shopping .one
    ∧ wState4.hexBoughtThisTurn.get .one = true
    ∧ HEX_COST ≤ wState4.gold.get .one
    ∧ buyHex wState4 0 3 = wState4 :=
  ⟨rfl, by decide, by decide,
   (buyHex_once_per_round wState4 0 3 .one rfl).1 (by decide)⟩

theorem placeCharacter_cap_spec_witness :
    wState5.step = .shopping .one
    ∧ maxUnits wState5.grid .one ≤ charOnBoard wState5.grid .one
    ∧ mageT.cost ≤ wState5.gold.get .one
    ∧ placeCharacter wState5 0 0 mageT = wState5
    ∧ charOnBoard wState5.grid .one ≤ maxUnits wState5.grid .one
    ∧ charOnBoard (placeCharacter wState5 0 0 mageT).grid .one
        ≤ maxUnits (placeCharacter wState5 0 0 mageT).grid .one :=
  ⟨rfl, by decide, by decide,
   placeCharacter_cap_spec.1 wState5 0 0 mageT .one rfl (by decide),
   by decide,
   placeCharacter_cap_spec.2 wState5 0 0 mageT .one (by decide)⟩

theorem ownership_invariant_shop_witness :
    OwnerInvariant initialState.grid ∧ OccupantsOwned initialState.grid
    ∧ (OwnerInvariant (buyHex initialState 0 3).grid
        ∧ OwnerInvariant (placeCharacter initialState 0 3 warriorT).grid) :=
  ⟨by decide, by decide,
   ownership_invariant_shop initialState 0 3 warriorT (by decide) (by decide)⟩

theorem getExecutionOrder_spec_witness :
    (3 % 2 = 1)
    ∧ getExecutionOrder schedGrid .all 3
        = sortedLiving schedGrid .one ++ sortedLiving schedGrid .two
    ∧ (∀ e ∈ scanLiving schedGrid .all, e.char.owner ≠ none)
    ∧ (getExecutionOrder schedGrid .all 3).Perm (scanLiving schedGrid .all) :=
  ⟨by decide, (getExecutionOrder_spec schedGrid 3).1 (by decide), by decide,
   (getExecutionOrder_spec schedGrid 3).2.2.2.2.2.2 (by decide)⟩

theorem executeCharAction_attack_spec_witness :
    (atkGrid 0 1).character = some (deployedChar assassinT .one 0)
    ∧ healDispatch (deployedChar assassinT .one 0) = false
    ∧ enemiesByDist (enemiesOf atkGrid 0 1 (deployedChar assassinT .one 0)) = [tankTarget]
    ∧ tankTarget.dist ≤ 1
    ∧ (executeCharAction atkGrid 0 1 =
        (if tankTarget.char.hp
            - damage (deployedChar assassinT .one 0).atk tankTarget.char.defense ≤ 0 then
          (setCharacter atkGrid tankTarget.r tankTarget.c none,
           "Attacked " ++ tankTarget.char.emoji ++ tankTarget.char.name ++ " for "
             ++ toString (damage (deployedChar assassinT .one 0).atk tankTarget.char.defense)
             ++ " dmg — KILLED!")
        else
          (setCharacter atkGrid tankTarget.r tankTarget.c
             (some { tankTarget.char with hp := tankTarget.char.hp - damage (deployedChar assassinT .one 0).atk tankTarget.char.defense }),
           "Attacked " ++ tankTarget.char.emoji ++ tankTarget.char.name ++ " for "
             ++ toString (damage (deployedChar assassinT .one 0).atk tankTarget.char.defense)
             ++ " dmg ("
             ++ toString (tankTarget.char.hp
               - damage (deployedChar assassinT .one 0).atk tankTarget.char.defense)
             ++ "HP left)")))
    ∧ (∀ x ∈ enemiesOf atkGrid 0 1 (deployedChar assassinT .one 0),
        tankTarget.dist ≤ x.dist)
    ∧ damage 15 20 = 1 ∧ damage 30 20 = 10 ∧ damage 8 3 = 5 :=
  ⟨by decide, by decide, by decide, by decide,
   executeCharAction_attack_spec atkGrid 0 1 (deployedChar assassinT .one 0)
     tankTarget [] (by decide) (Or.inl (by decide)) (by decide) (by decide)⟩

theorem executeCharAction_heal_spec_witness :
    (healGrid 0 1).character = some (deployedChar healerT .one 0)
    ∧ enemiesOf healGrid 0 1 (deployedChar healerT .one 0) ≠ []
    ∧ healDispatch (deployedChar healerT .one 0) = true
    ∧ woundedSorted (alliesOf healGrid 0 1 (deployedChar healerT .one 0)) = [healTarget]
    ∧ healTarget.dist ≤ 2
    ∧ min healTarget.char.maxHp (healTarget.char.hp + (deployedChar healerT .one 0).atk) = 50
    ∧ healTarget.char.maxHp = 90
    ∧ (executeCharAction healGrid 0 1 =
        (setCharacter healGrid healTarget.r healTarget.c
           (some { healTarget.char with hp := min healTarget.char.maxHp (healTarget.char.hp + (deployedChar healerT .one 0).atk) }),
         "Healed " ++ healTarget.char.emoji ++ healTarget.char.name ++ " +"
           ++ toString (deployedChar healerT .one 0).atk ++ "HP")
      ∧ (healGrid healTarget.r healTarget.c).character = some healTarget.char
      ∧ healTarget.char.owner = (deployedChar healerT .one 0).owner
      ∧ healTarget.char.hp < healTarget.char.maxHp
      ∧ (∀ a ∈ alliesOf healGrid 0 1 (deployedChar healerT .one 0),
          a.char.hp < a.char.maxHp → healTarget.char.hp ≤ a.char.hp)
      ∧ ¬(healTarget.r = 0 ∧ healTarget.c = 1)
      ∧ ((executeCharAction healGrid 0 1).1 0 1).character
          = some (deployedChar healerT .one 0)) :=
  ⟨by decide, by decide, by decide, by decide, by decide, by decide, by decide,
   executeCharAction_heal_spec healGrid 0 1 (deployedChar healerT .one 0)
     healTarget [] (by decide) (by decide) (by decide) (by decide) (by decide)⟩

end Kombat
